import Mathlib

/-!
# bluetooth-sniffer: distance estimator, scan callback and advertisement report

A shallow embedding of `main.go`.

* `rssiToDistance` is the distance estimator.  The Go code computes in `float64`;
  here the arithmetic is read over the real numbers (`math.Pow` is the real power,
  `math.Max` the maximum), which is the reading the numeric statements are made in.
* Standard output is a `String`; every `fmt.Printf` appends to it.
* The driver (`tinygo.org/x/bluetooth`) is an external collaborator: a scan result is
  a record of what its accessors return, and which case of the `select` in `Start`
  fires is an input of the model.
* Three pieces of the Go runtime are inputs as well: the rune mapping
  `unicode.ToLower` (`lower`), the clock reading already formatted by
  `time.Now().Format` (`now`), and the `%.2f` verb on a distance (`fmtF2`).
-/

namespace Sniffer

/-! ## Distance estimator (`main.go`, lines 119-130) -/

/-- Go `rssiToDistance`: converts an RSSI reading to an estimated distance in metres. -/
noncomputable def rssiToDistance (rssi : Int) : ℝ :=
  if rssi = 0 then
    0
  else
    let txPower : ℝ := -59.0
    let pathLoss : ℝ := 2.0
    let distance : ℝ := (10 : ℝ) ^ ((txPower - (rssi : ℝ)) / (10 * pathLoss))
    max 0.1 distance

/-- The distance formula as the specification words it:
`10^((referencePower - rssi) / (10 * pathLossExponent))`, floored at `0.1`. -/
noncomputable def specDistance (referencePower pathLossExponent : ℝ) (rssi : Int) : ℝ :=
  max 0.1 ((10 : ℝ) ^ ((referencePower - (rssi : ℝ)) / (10 * pathLossExponent)))

/-! ## Data model -/

/-- A `byte`. -/
abbrev Byte := Fin 256

/-- Driver type `bluetooth.ManufacturerDataElement`: a `uint16` company identifier and
its payload. -/
structure ManufacturerDataElement where
  CompanyID : Fin 65536
  Data : List Byte

/-- Driver type `bluetooth.ServiceDataElement`; `UUID` holds the text that
`UUID.String()` returns. -/
structure ServiceDataElement where
  UUID : String
  Data : List Byte

/-- Driver type `bluetooth.ScanResult`, as seen through the accessors the program calls:
`Address.String()`, `RSSI` (an `int16`), `LocalName()`, `ManufacturerData()`,
`ServiceData()` and `Bytes()`. -/
structure ScanResult where
  Address : String
  RSSI : Int
  LocalName : String
  ManufacturerData : List ManufacturerDataElement
  ServiceData : List ServiceDataElement
  Bytes : List Byte

/-- Go `BluetoothSniffer`; the adapter handle is the external driver and carries no
data of the model. -/
structure BluetoothSniffer where
  filterAddr : String

/-- A Go `error` value: one produced by the driver, or one built by
`fmt.Errorf("...: %w", err)`, which records its message and the wrapped error. -/
inductive GoError where
  | driver (text : String)
  | wrapError (msg : String) (err : GoError)
deriving DecidableEq

/-- Method `Error()`. -/
def GoError.Error : GoError → String
  | .driver text => text
  | .wrapError msg _ => msg

/-- Method `Unwrap()`; `none` for an error that wraps nothing. -/
def GoError.Unwrap : GoError → Option GoError
  | .driver _ => none
  | .wrapError _ err => some err

/-- Call `fmt.Errorf(context + ": %w", err)`. -/
def Errorf (context : String) (err : GoError) : GoError :=
  .wrapError (context ++ ": " ++ err.Error) err

/-! ## Library functions the program calls -/

/-- Go `strings.ToLower`: maps every rune through `unicode.ToLower`, here `lower`. -/
def ToLower (lower : Char → Char) (s : String) : String :=
  String.mk (s.data.map lower)

/-- Search of `strings.Index`, keeping only whether an occurrence was found. -/
def containsAt : List Char → List Char → Bool
  | [], substr => substr.isEmpty
  | c :: s, substr => substr.isPrefixOf (c :: s) || containsAt s substr

/-- Go `strings.Contains` (`Index(s, substr) >= 0`). -/
def Contains (s substr : String) : Bool :=
  containsAt s.data substr.data

/-- Table `hextable` of package `encoding/hex`. -/
def hextable : List Char := "0123456789abcdef".toList

/-- Loop of `hex.Encode`: two table characters per byte. -/
def Encode : List Byte → List Char
  | [] => []
  | v :: src =>
    hextable.getD (v.val >>> 4) '?' :: hextable.getD (v.val &&& 0x0f) '?' :: Encode src

/-- Go `hex.EncodeToString`. -/
def EncodeToString (src : List Byte) : String :=
  String.mk (Encode src)

/-- Table `ldigits` of package `fmt`. -/
def ldigits : List Char := "0123456789abcdefx".toList

/-- Digit loop of `fmt`'s integer formatting in base 16: the low digit is written last,
the value is shifted right until it is below 16. The first argument bounds the number
of digits. -/
def fmtHexDigits : Nat → Nat → List Char
  | 0, _ => []
  | fuel + 1, u =>
    if 16 ≤ u then
      fmtHexDigits fuel (u >>> 4) ++ [ldigits.getD (u &&& 0xF) '?']
    else
      [ldigits.getD u '?']

/-- Verb `%04x` on an unsigned integer: its hexadecimal digits (a 64-bit value has at
most 16), zero-padded on the left to width 4. -/
def fmt04x (u : Nat) : String :=
  let digits := fmtHexDigits 16 u
  String.mk (List.replicate (4 - digits.length) '0' ++ digits)

/-- Verb `%d` on a signed integer. -/
def fmtD (i : Int) : String := toString i

/-! ## Advertisement reporter (`main.go`, lines 79-117) -/

/-- Lines 80-91 of `displayAdvertisementData`: header, address, RSSI, distance and the
optional local name. -/
noncomputable def displayHeader (now : String) (fmtF2 : ℝ → String) (result : ScanResult)
    (out : String) : String :=
  let timestamp := now
  let out := out ++ "=== [" ++ timestamp ++ "] ===\n"
  let out := out ++ "Address: " ++ result.Address ++ "\n"
  let out := out ++ "RSSI: " ++ fmtD result.RSSI ++ " dBm\n"
  let distance := rssiToDistance result.RSSI
  let out := out ++ "Estimated Distance: " ++ fmtF2 distance ++ "m\n"
  let localName := result.LocalName
  if localName ≠ "" then
    out ++ "Local Name: " ++ localName ++ "\n"
  else
    out

/-- Lines 93-100 of `displayAdvertisementData`. -/
def displayManufacturerData (result : ScanResult) (out : String) : String :=
  let manufacturerData := result.ManufacturerData
  if manufacturerData.length > 0 then
    manufacturerData.foldl
      (fun out data =>
        let out := out ++ "  Company ID: 0x" ++ fmt04x data.CompanyID.val ++ "\n"
        out ++ "  Data: " ++ EncodeToString data.Data ++ "\n")
      (out ++ "Manufacturer Data:\n")
  else
    out

/-- Lines 102-109 of `displayAdvertisementData`. -/
def displayServiceData (result : ScanResult) (out : String) : String :=
  let serviceData := result.ServiceData
  if serviceData.length > 0 then
    serviceData.foldl
      (fun out data =>
        let out := out ++ "  Service UUID: " ++ data.UUID ++ "\n"
        out ++ "  Data: " ++ EncodeToString data.Data ++ "\n")
      (out ++ "Service Data:\n")
  else
    out

/-- Lines 111-116 of `displayAdvertisementData`: the raw bytes and the closing blank
line. -/
def displayRawData (result : ScanResult) (out : String) : String :=
  let rawData := result.Bytes
  let out :=
    if rawData.length > 0 then
      out ++ "Raw Advertisement Data: " ++ EncodeToString rawData ++ "\n"
    else
      out
  out ++ "\n"

/-- Go `displayAdvertisementData`: standard output after the report of `result` has
been printed onto `out`. -/
noncomputable def displayAdvertisementData (now : String) (fmtF2 : ℝ → String)
    (result : ScanResult) (out : String) : String :=
  displayRawData result
    (displayServiceData result
      (displayManufacturerData result
        (displayHeader now fmtF2 result out)))

/-! ## Scanner controller (`main.go`, lines 24-77) -/

/-- Go `NewBluetoothSniffer`; `enable` is what `DefaultAdapter.Enable()` returned. -/
def NewBluetoothSniffer (lower : Char → Char) (enable : Option GoError)
    (filterAddr : String) : Except GoError BluetoothSniffer :=
  match enable with
  | some err => .error (Errorf "failed to enable bluetooth" err)
  | none => .ok { filterAddr := ToLower lower filterAddr }

/-- The function `Start` passes to `adapter.Scan` (lines 46-60), run on one delivered
result; `ctxDone` tells whether `ctx.Done()` is closed when the result arrives. -/
noncomputable def scanCallback (lower : Char → Char) (now : String) (fmtF2 : ℝ → String)
    (bs : BluetoothSniffer) (ctxDone : Bool) (result : ScanResult) (out : String) :
    String :=
  if ctxDone then
    out
  else
    let deviceAddr := ToLower lower result.Address
    if bs.filterAddr != "" && !Contains deviceAddr bs.filterAddr then
      out
    else
      displayAdvertisementData now fmtF2 result out

/-- Which case of the `select` at lines 64-74 fires: `scanDone` delivers the value
`adapter.Scan` returned, or `ctx.Done()` is closed. -/
inductive SelectCase where
  | scanDone (err : Option GoError)
  | ctxDone

/-- Value returned by Go `Start` (lines 64-76); `stopScan` is what `adapter.StopScan()`
returns when called. `none` is `nil`. -/
def Start (fired : SelectCase) (stopScan : Option GoError) : Option GoError :=
  match fired with
  | .scanDone err =>
    match err with
    | some e => some (Errorf "scanning failed" e)
    | none => none
  | .ctxDone =>
    match stopScan with
    | some e => some (Errorf "failed to stop scanning" e)
    | none => none

/-! ## Specification-side definitions -/

/-- Lower-case hexadecimal digit of a value below 16. -/
def lowerHexDigit (d : Nat) : Char :=
  if d < 10 then Char.ofNat (48 + d) else Char.ofNat (87 + d)

/-- A 16-bit number as exactly four lower-case hexadecimal digits. -/
def specHex4 (c : Nat) : String :=
  String.mk [lowerHexDigit (c / 4096 % 16), lowerHexDigit (c / 256 % 16),
    lowerHexDigit (c / 16 % 16), lowerHexDigit (c % 16)]

/-- A byte sequence as lower-case hexadecimal, two digits per byte. -/
def specHexBytes : List Byte → List Char
  | [] => []
  | b :: bs => lowerHexDigit (b.val / 16) :: lowerHexDigit (b.val % 16) :: specHexBytes bs

/-- The two report lines of one manufacturer-data entry. -/
def specManufacturerEntry (e : ManufacturerDataElement) : String :=
  "  Company ID: 0x" ++ specHex4 e.CompanyID.val ++ "\n" ++
    ("  Data: " ++ String.mk (specHexBytes e.Data) ++ "\n")

/-- Text made of the given lines, each closed by a newline. -/
def unlines : List String → String
  | [] => ""
  | l :: ls => l ++ "\n" ++ unlines ls

/-- Concatenation of a list of texts. -/
def concatAll : List String → String
  | [] => ""
  | t :: ts => t ++ concatAll ts

/-- The scan result of a silent device, for concrete evaluation. -/
def sampleResult (addr : String) : ScanResult :=
  { Address := addr, RSSI := -70, LocalName := "", ManufacturerData := [],
    ServiceData := [], Bytes := [] }

/-- The scan result of a device advertising one manufacturer-data entry, company
identifier 0x004C with payload 02 15, for concrete evaluation. -/
def sampleBeacon : ScanResult :=
  { Address := "AA:BB:CC:DD:EE:FF", RSSI := -70, LocalName := "",
    ManufacturerData := [{ CompanyID := 0x004C, Data := [0x02, 0x15] }],
    ServiceData := [], Bytes := [] }

/-! ## Helper lemmas on the estimator -/

theorem rssiToDistance_of_ne_zero (r : Int) (h : r ≠ 0) :
    rssiToDistance r = max 0.1 ((10 : ℝ) ^ ((-59 - (r : ℝ)) / 20)) := by
  unfold rssiToDistance
  rw [if_neg h]
  norm_num

theorem tenth_eq_rpow : (0.1 : ℝ) = (10 : ℝ) ^ (-1 : ℝ) := by
  rw [Real.rpow_neg_one]
  norm_num

theorem pow_le_tenth_iff (r : Int) :
    (10 : ℝ) ^ ((-59 - (r : ℝ)) / 20) ≤ 0.1 ↔ -39 ≤ r := by
  rw [tenth_eq_rpow, Real.rpow_le_rpow_left_iff (by norm_num : (1 : ℝ) < 10)]
  have hc : ((-39 : Int) : ℝ) = -39 := by norm_num
  constructor
  · intro h
    have h2 : ((-39 : Int) : ℝ) ≤ (r : ℝ) := by rw [hc]; linarith
    exact_mod_cast h2
  · intro h
    have h2 : ((-39 : Int) : ℝ) ≤ (r : ℝ) := by exact_mod_cast h
    rw [hc] at h2
    linarith

theorem rssiToDistance_antitone_of_ne_zero (r1 r2 : Int) (h1 : r1 ≠ 0) (h2 : r2 ≠ 0)
    (h : r1 ≤ r2) : rssiToDistance r2 ≤ rssiToDistance r1 := by
  rw [rssiToDistance_of_ne_zero r1 h1, rssiToDistance_of_ne_zero r2 h2]
  apply max_le_max le_rfl
  apply Real.rpow_le_rpow_of_exponent_le (by norm_num)
  have hr : (r1 : ℝ) ≤ (r2 : ℝ) := by exact_mod_cast h
  linarith

theorem tenth_le_rssiToDistance (r : Int) (h : r ≠ 0) : (0.1 : ℝ) ≤ rssiToDistance r := by
  rw [rssiToDistance_of_ne_zero r h]
  exact le_max_left _ _

theorem rssiToDistance_zero_eq : rssiToDistance 0 = 0 := by
  unfold rssiToDistance
  rw [if_pos rfl]

/-! ## Distance estimator: the stated properties -/

/-- C1, as stated, fails: with `r1 = 0 ≤ r2 = 1` the estimate for `r1` is `0`, below
the estimate `0.1` for `r2`. -/
theorem rssiToDistance_not_antitone_at_zero :
    (0 : Int) ≤ 1 ∧ ¬ (rssiToDistance 0 ≥ rssiToDistance 1) := by
  refine ⟨by decide, ?_⟩
  have h1 := tenth_le_rssiToDistance 1 (by decide)
  rw [rssiToDistance_zero_eq]
  intro h
  have h2 : (0.1 : ℝ) ≤ 0 := le_trans h1 h
  norm_num at h2

/-- C1, amended: for integers `r1 ≤ r2` the estimate for `r1` is at least the estimate
for `r2` exactly when it is not the case that `r1 = 0` and `r2 > 0`; so the estimator is
non-increasing on every pair that does not start at the special input 0 below a
positive reading. -/
theorem rssiToDistance_antitone_iff (r1 r2 : Int) (h : r1 ≤ r2) :
    rssiToDistance r1 ≥ rssiToDistance r2 ↔ ¬ (r1 = 0 ∧ 0 < r2) := by
  by_cases h1 : r1 = 0
  · subst h1
    by_cases h2 : r2 = 0
    · subst h2
      simp
    · have hpos : (0 : Int) < r2 := lt_of_le_of_ne h (Ne.symm h2)
      have hge := tenth_le_rssiToDistance r2 h2
      rw [rssiToDistance_zero_eq]
      constructor
      · intro hle
        have h3 : (0.1 : ℝ) ≤ 0 := le_trans hge hle
        norm_num at h3
      · intro hn
        exact absurd ⟨rfl, hpos⟩ hn
  · constructor
    · intro _ hc
      exact h1 hc.1
    · intro _
      by_cases h2 : r2 = 0
      · subst h2
        rw [rssiToDistance_zero_eq]
        have hge := tenth_le_rssiToDistance r1 h1
        have h3 : (0 : ℝ) ≤ 0.1 := by norm_num
        exact le_trans h3 hge
      · exact rssiToDistance_antitone_of_ne_zero r1 r2 h1 h2 h

theorem rssiToDistance_antitone_iff_witness :
    (-80 : Int) ≤ -40 ∧
      (rssiToDistance (-80) ≥ rssiToDistance (-40) ↔ ¬ ((-80 : Int) = 0 ∧ (0 : Int) < -40)) :=
  ⟨by decide, rssiToDistance_antitone_iff (-80) (-40) (by decide)⟩

/-- C2: for every integer signal strength other than 0 the estimated distance is at
least 0.1 (the result is floored at 0.1 metres). -/
theorem rssiToDistance_ge_floor (r : Int) (h : r ≠ 0) : rssiToDistance r ≥ 0.1 :=
  tenth_le_rssiToDistance r h

theorem rssiToDistance_ge_floor_witness :
    (-75 : Int) ≠ 0 ∧ rssiToDistance (-75) ≥ 0.1 :=
  ⟨by decide, rssiToDistance_ge_floor (-75) (by decide)⟩

/-- C3: for every integer `r` other than 0 the estimate equals
`max(0.1, 10^((-59 - r) / 20))`, which is the specification's formula
`10^((referencePower - rssi) / (10 * pathLossExponent))` with `referencePower = -59`
and `pathLossExponent = 2.0`, floored at 0.1. -/
theorem rssiToDistance_eq_formula (r : Int) (h : r ≠ 0) :
    rssiToDistance r = max 0.1 ((10 : ℝ) ^ ((-59 - (r : ℝ)) / 20)) ∧
      rssiToDistance r = specDistance (-59) 2.0 r := by
  refine ⟨rssiToDistance_of_ne_zero r h, ?_⟩
  unfold rssiToDistance specDistance
  rw [if_neg h]
  norm_num

theorem rssiToDistance_eq_formula_witness :
    (-67 : Int) ≠ 0 ∧
      (rssiToDistance (-67) = max 0.1 ((10 : ℝ) ^ ((-59 - (((-67 : Int)) : ℝ)) / 20)) ∧
        rssiToDistance (-67) = specDistance (-59) 2.0 (-67)) :=
  ⟨by decide, rssiToDistance_eq_formula (-67) (by decide)⟩

/-- C4: the input 0 is a special case: the estimate is exactly 0, neither the value of
the power formula (`10^(-59/20)`, which is positive) nor the floor 0.1. -/
theorem rssiToDistance_zero :
    rssiToDistance 0 = 0 ∧
      rssiToDistance 0 ≠ (10 : ℝ) ^ ((-59 - (((0 : Int)) : ℝ)) / 20) ∧
      rssiToDistance 0 ≠ 0.1 ∧
      rssiToDistance 0 ≠ specDistance (-59) 2.0 0 := by
  rw [rssiToDistance_zero_eq]
  refine ⟨rfl, ?_, by norm_num, ?_⟩
  · have hp : (0 : ℝ) < (10 : ℝ) ^ ((-59 - (((0 : Int)) : ℝ)) / 20) :=
      Real.rpow_pos_of_pos (by norm_num) _
    exact ne_of_lt hp
  · have hp : (0.1 : ℝ) ≤ specDistance (-59) 2.0 0 := le_max_left _ _
    intro hc
    rw [← hc] at hp
    norm_num at hp

/-- C5: at the calibration point the estimate is 1: the exponent `(-59 - (-59)) / 20`
is 0, and `10^0 = 1` lies above the floor 0.1. -/
theorem rssiToDistance_calibration : rssiToDistance (-59) = 1.0 := by
  rw [rssiToDistance_of_ne_zero (-59) (by decide)]
  have he : ((-59 : ℝ) - (((-59 : Int)) : ℝ)) / 20 = 0 := by norm_num
  rw [he, Real.rpow_zero]
  norm_num

/-- C10: for every nonzero reading `r` the estimate is 0.1 exactly when `r ≥ -39`;
below -39 it is `10^((-59 - r) / 20)`, strictly above 0.1; so every nonzero reading
stronger than -39 dBm gets the same estimate 0.1. -/
theorem rssiToDistance_floor_threshold (r : Int) (h : r ≠ 0) :
    (rssiToDistance r = 0.1 ↔ -39 ≤ r) ∧
      (r < -39 →
        rssiToDistance r = (10 : ℝ) ^ ((-59 - (r : ℝ)) / 20) ∧ rssiToDistance r > 0.1) ∧
      (-39 < r → rssiToDistance r = 0.1) ∧
      (-39 < r → ∀ fmtF2 : ℝ → String, fmtF2 (rssiToDistance r) = fmtF2 0.1) := by
  have hiff : rssiToDistance r = 0.1 ↔ -39 ≤ r := by
    rw [rssiToDistance_of_ne_zero r h, ← pow_le_tenth_iff r]
    exact max_eq_left_iff
  refine ⟨hiff, ?_, fun hr => hiff.mpr (le_of_lt hr),
    fun hr fmtF2 => congrArg fmtF2 (hiff.mpr (le_of_lt hr))⟩
  intro hr
  have hnle : ¬ (10 : ℝ) ^ ((-59 - (r : ℝ)) / 20) ≤ 0.1 := by
    rw [pow_le_tenth_iff r]
    exact not_le.mpr hr
  have hlt : (0.1 : ℝ) < (10 : ℝ) ^ ((-59 - (r : ℝ)) / 20) := not_le.mp hnle
  have heq : rssiToDistance r = (10 : ℝ) ^ ((-59 - (r : ℝ)) / 20) := by
    rw [rssiToDistance_of_ne_zero r h]
    exact max_eq_right (le_of_lt hlt)
  exact ⟨heq, by rw [heq]; exact hlt⟩

theorem rssiToDistance_floor_threshold_witness :
    (-39 : Int) ≠ 0 ∧
      ((rssiToDistance (-39) = 0.1 ↔ (-39 : Int) ≤ -39) ∧
        ((-39 : Int) < -39 →
          rssiToDistance (-39) = (10 : ℝ) ^ ((-59 - (((-39 : Int)) : ℝ)) / 20) ∧
            rssiToDistance (-39) > 0.1) ∧
        ((-39 : Int) < -39 → rssiToDistance (-39) = 0.1) ∧
        ((-39 : Int) < -39 →
          ∀ fmtF2 : ℝ → String, fmtF2 (rssiToDistance (-39)) = fmtF2 0.1)) :=
  ⟨by decide, rssiToDistance_floor_threshold (-39) (by decide)⟩

/-! ## Helper lemmas on strings and formatting -/

theorem containsAt_iff (s sub : List Char) : containsAt s sub = true ↔ sub <:+: s := by
  induction s with
  | nil => simp [containsAt, List.isEmpty_iff]
  | cons c s ih =>
    simp [containsAt, List.infix_cons_iff, ih, List.isPrefixOf_iff_prefix]

theorem Contains_iff (s sub : String) :
    Contains s sub = true ↔ ∃ pre post : String, s = pre ++ sub ++ post := by
  unfold Contains
  rw [containsAt_iff]
  constructor
  · rintro ⟨p, q, h⟩
    refine ⟨String.mk p, String.mk q, String.ext ?_⟩
    simp [String.data_append, h]
  · rintro ⟨pre, post, h⟩
    refine ⟨pre.data, post.data, ?_⟩
    rw [h]
    simp [String.data_append]

theorem ToLower_eq_empty_iff (lower : Char → Char) (s : String) :
    ToLower lower s = "" ↔ s = "" := by
  unfold ToLower
  constructor
  · intro h
    have hd : (String.mk (s.data.map lower)).data = "".data := by rw [h]
    have hd2 : s.data.map lower = [] := hd
    have hd3 : s.data = [] := List.map_eq_nil_iff.mp hd2
    exact String.ext hd3
  · intro h
    subst h
    rfl

theorem and_0xF (u : Nat) : u &&& 0xF = u % 16 :=
  Nat.and_pow_two_sub_one_eq_mod u 4

theorem shr_4 (u : Nat) : u >>> 4 = u / 16 :=
  Nat.shiftRight_eq_div_pow u 4

theorem hextable_getD (d : Nat) (h : d < 16) : hextable.getD d '?' = lowerHexDigit d := by
  interval_cases d <;> rfl

theorem Encode_eq (src : List Byte) : Encode src = specHexBytes src := by
  induction src with
  | nil => rfl
  | cons v src ih =>
    have hv : v.val < 256 := v.isLt
    have h1 : v.val / 16 < 16 := by omega
    have h2 : v.val % 16 < 16 := by omega
    simp only [Encode, specHexBytes, ih, and_0xF, shr_4, hextable_getD _ h1,
      hextable_getD _ h2]

theorem ldigits_get (d : Nat) (h : d < 16) : ldigits[d]?.getD '?' = lowerHexDigit d := by
  interval_cases d <;> rfl

theorem fmt04x_eq (u : Nat) (h : u < 65536) : fmt04x u = specHex4 u := by
  unfold fmt04x specHex4
  have d0 : u % 16 < 16 := by omega
  have d1 : u / 16 % 16 < 16 := by omega
  have d2 : u / 256 % 16 < 16 := by omega
  have d3 : u / 4096 % 16 < 16 := by omega
  have z : lowerHexDigit 0 = '0' := rfl
  by_cases h1 : 16 ≤ u
  · by_cases h2 : 16 ≤ u / 16
    · by_cases h3 : 16 ≤ u / 16 / 16
      · have h4 : ¬ 16 ≤ u / 16 / 16 / 16 := by omega
        have e3 : u / 16 / 16 / 16 = u / 4096 % 16 := by omega
        have e2 : u / 16 / 16 % 16 = u / 256 % 16 := by omega
        simp [fmtHexDigits, h1, h2, h3, h4, and_0xF, shr_4]
        rw [e3, e2, ldigits_get _ d3, ldigits_get _ d2, ldigits_get _ d1,
          ldigits_get _ d0]
      · have e2 : u / 16 / 16 = u / 256 % 16 := by omega
        have e3 : u / 4096 % 16 = 0 := by omega
        simp [fmtHexDigits, h1, h2, h3, and_0xF, shr_4]
        rw [e2, e3, z, ldigits_get _ d2, ldigits_get _ d1, ldigits_get _ d0]
    · have e1 : u / 16 = u / 16 % 16 := by omega
      have e2 : u / 256 % 16 = 0 := by omega
      have e3 : u / 4096 % 16 = 0 := by omega
      have d1' : u / 16 < 16 := by omega
      simp [fmtHexDigits, h1, h2, and_0xF, shr_4]
      rw [e2, e3, z, ← e1, ldigits_get _ d1', ldigits_get _ d0]
  · have e0 : u = u % 16 := by omega
    have e1 : u / 16 % 16 = 0 := by omega
    have e2 : u / 256 % 16 = 0 := by omega
    have e3 : u / 4096 % 16 = 0 := by omega
    have d0' : u < 16 := by omega
    simp [fmtHexDigits, h1]
    rw [e1, e2, e3, z, ← e0, ldigits_get _ d0']

theorem foldl_append_eq {α : Type} (f : String → α → String) (g : α → String)
    (hf : ∀ o d, f o d = o ++ g d) (l : List α) (init : String) :
    l.foldl f init = init ++ concatAll (l.map g) := by
  induction l generalizing init with
  | nil => simp [concatAll]
  | cons d l ih => simp [List.foldl, ih, hf, concatAll, String.append_assoc]

theorem foldl_length_le {α : Type} (f : String → α → String)
    (hf : ∀ o d, o.length ≤ (f o d).length) (l : List α) (init : String) :
    init.length ≤ (l.foldl f init).length := by
  induction l generalizing init with
  | nil => simp
  | cons d l ih => exact le_trans (hf init d) (ih (f init d))

theorem displayManufacturerData_eq (result : ScanResult) (out : String)
    (h : result.ManufacturerData ≠ []) :
    displayManufacturerData result out =
      out ++ "Manufacturer Data:\n" ++
        concatAll (result.ManufacturerData.map specManufacturerEntry) := by
  unfold displayManufacturerData
  have hl : result.ManufacturerData.length > 0 := List.length_pos.mpr h
  simp only [hl, if_true]
  apply foldl_append_eq
  intro o d
  simp only [specManufacturerEntry, fmt04x_eq d.CompanyID.val d.CompanyID.isLt,
    EncodeToString, Encode_eq, String.append_assoc]

theorem length_le_displayHeader (now : String) (fmtF2 : ℝ → String) (result : ScanResult)
    (out : String) : out.length ≤ (displayHeader now fmtF2 result out).length := by
  unfold displayHeader
  simp only []
  split <;> simp only [String.length_append] <;> omega

theorem length_le_displayManufacturerData (result : ScanResult) (out : String) :
    out.length ≤ (displayManufacturerData result out).length := by
  unfold displayManufacturerData
  simp only []
  split
  · refine le_trans ?_ (foldl_length_le _ ?_ _ _)
    · simp only [String.length_append]; omega
    · intro o d
      simp only [String.length_append]; omega
  · exact le_rfl

theorem length_le_displayServiceData (result : ScanResult) (out : String) :
    out.length ≤ (displayServiceData result out).length := by
  unfold displayServiceData
  simp only []
  split
  · refine le_trans ?_ (foldl_length_le _ ?_ _ _)
    · simp only [String.length_append]; omega
    · intro o d
      simp only [String.length_append]; omega
  · exact le_rfl

theorem length_lt_displayRawData (result : ScanResult) (out : String) :
    out.length < (displayRawData result out).length := by
  unfold displayRawData
  simp only []
  have h1 : ("\n" : String).length = 1 := rfl
  split <;> simp only [String.length_append, h1] <;> omega

theorem displayAdvertisementData_ne (now : String) (fmtF2 : ℝ → String)
    (result : ScanResult) (out : String) :
    displayAdvertisementData now fmtF2 result out ≠ out := by
  intro h
  have h1 := length_le_displayHeader now fmtF2 result out
  have h2 := length_le_displayManufacturerData result (displayHeader now fmtF2 result out)
  have h3 := length_le_displayServiceData result
    (displayManufacturerData result (displayHeader now fmtF2 result out))
  have h4 := length_lt_displayRawData result
    (displayServiceData result
      (displayManufacturerData result (displayHeader now fmtF2 result out)))
  have h5 : (displayAdvertisementData now fmtF2 result out).length = out.length := by rw [h]
  unfold displayAdvertisementData at h5
  omega

theorem ToLower_ascii (lower : Char → Char)
    (hascii : ∀ c : Char, c.toNat < 128 → lower c = c.toLower) (s : String)
    (hs : ∀ c ∈ s.data, c.toNat < 128) : ToLower lower s = ToLower Char.toLower s := by
  unfold ToLower
  congr 1
  exact List.map_congr_left (fun c hc => hascii c (hs c hc))

theorem scanCallback_report (lower : Char → Char) (now : String) (fmtF2 : ℝ → String)
    (f : String) (ctxDone : Bool) (result : ScanResult) (out : String)
    (h : ctxDone = false ∧ (f = "" ∨ ∃ pre post : String,
      ToLower lower result.Address = pre ++ ToLower lower f ++ post)) :
    scanCallback lower now fmtF2 { filterAddr := ToLower lower f } ctxDone result out =
      displayAdvertisementData now fmtF2 result out := by
  obtain ⟨hc, hf⟩ := h
  unfold scanCallback
  simp only [hc, Bool.false_eq_true, if_false]
  rcases hf with hf | hf
  · have he : ToLower lower f = "" := (ToLower_eq_empty_iff lower f).mpr hf
    simp [he]
  · have hk := (Contains_iff _ _).mpr hf
    simp [hk]

theorem scanCallback_drop (lower : Char → Char) (now : String) (fmtF2 : ℝ → String)
    (f : String) (ctxDone : Bool) (result : ScanResult) (out : String)
    (h : ¬ (ctxDone = false ∧ (f = "" ∨ ∃ pre post : String,
      ToLower lower result.Address = pre ++ ToLower lower f ++ post))) :
    scanCallback lower now fmtF2 { filterAddr := ToLower lower f } ctxDone result out =
      out := by
  unfold scanCallback
  cases ctxDone with
  | true => simp
  | false =>
    have hne : ToLower lower f ≠ "" := by
      intro he
      exact h ⟨rfl, Or.inl ((ToLower_eq_empty_iff lower f).mp he)⟩
    have hk : Contains (ToLower lower result.Address) (ToLower lower f) = false := by
      cases hk : Contains (ToLower lower result.Address) (ToLower lower f) with
      | false => rfl
      | true => exact absurd ⟨rfl, Or.inr ((Contains_iff _ _).mp hk)⟩ h
    simp [hne, hk]

/-! ## Scanner controller and reporter: the stated properties -/

/-- C6: for a sniffer built with filter `f`, the scan callback passes a delivered result
to the reporter exactly when cancellation has not been requested and (`f` is empty or
the lower-cased address contains the lower-cased `f`); in every other case standard
output is left as it was. With a rune mapping that agrees with ASCII lower-casing on
ASCII, filter "aa:bb" reports "AA:BB:CC:DD:EE:FF" and drops "11:22:33:44:55:66"; an
empty filter reports every address; a cancelled context drops every result. -/
theorem scanCallback_reports_iff (lower : Char → Char) (now : String) (fmtF2 : ℝ → String)
    (f : String) (bs : BluetoothSniffer) (ctxDone : Bool) (result : ScanResult)
    (out : String) (hbs : NewBluetoothSniffer lower none f = Except.ok bs) :
    (scanCallback lower now fmtF2 bs ctxDone result out =
        displayAdvertisementData now fmtF2 result out ↔
      (ctxDone = false ∧ (f = "" ∨ ∃ pre post : String,
        ToLower lower result.Address = pre ++ ToLower lower f ++ post))) ∧
    (scanCallback lower now fmtF2 bs ctxDone result out = out ↔
      ¬ (ctxDone = false ∧ (f = "" ∨ ∃ pre post : String,
        ToLower lower result.Address = pre ++ ToLower lower f ++ post))) ∧
    ((∀ c : Char, c.toNat < 128 → lower c = c.toLower) → f = "aa:bb" → ctxDone = false →
      (result.Address = "AA:BB:CC:DD:EE:FF" →
        scanCallback lower now fmtF2 bs ctxDone result out =
          displayAdvertisementData now fmtF2 result out) ∧
      (result.Address = "11:22:33:44:55:66" →
        scanCallback lower now fmtF2 bs ctxDone result out = out)) ∧
    (f = "" → ctxDone = false →
      scanCallback lower now fmtF2 bs ctxDone result out =
        displayAdvertisementData now fmtF2 result out) ∧
    (ctxDone = true → scanCallback lower now fmtF2 bs ctxDone result out = out) := by
  have hb : bs = { filterAddr := ToLower lower f } := by
    simp only [NewBluetoothSniffer, Except.ok.injEq] at hbs
    exact hbs.symm
  subst hb
  have hne := displayAdvertisementData_ne now fmtF2 result out
  refine ⟨⟨?_, scanCallback_report lower now fmtF2 f ctxDone result out⟩,
    ⟨?_, scanCallback_drop lower now fmtF2 f ctxDone result out⟩, ?_, ?_, ?_⟩
  · intro h
    by_contra hc
    rw [scanCallback_drop lower now fmtF2 f ctxDone result out hc] at h
    exact hne h.symm
  · intro h hc
    rw [scanCallback_report lower now fmtF2 f ctxDone result out hc] at h
    exact hne h
  · intro hascii hf hc
    subst hf
    have hfl : ToLower lower "aa:bb" = "aa:bb" := by
      rw [ToLower_ascii lower hascii "aa:bb" (by decide)]
      decide
    constructor
    · intro ha
      apply scanCallback_report
      refine ⟨hc, Or.inr ⟨"", ":cc:dd:ee:ff", ?_⟩⟩
      rw [ha, hfl, ToLower_ascii lower hascii "AA:BB:CC:DD:EE:FF" (by decide)]
      decide
    · intro ha
      apply scanCallback_drop
      rintro ⟨-, hf | hf⟩
      · exact absurd hf (by decide)
      · have hk := (Contains_iff _ _).mpr hf
        rw [ha, hfl, ToLower_ascii lower hascii "11:22:33:44:55:66" (by decide)] at hk
        exact absurd hk (by decide)
  · intro hf hc
    exact scanCallback_report lower now fmtF2 f ctxDone result out ⟨hc, Or.inl hf⟩
  · intro hc
    apply scanCallback_drop
    rintro ⟨hc2, -⟩
    rw [hc] at hc2
    exact absurd hc2 (by decide)

theorem scanCallback_reports_iff_witness :
    NewBluetoothSniffer Char.toLower none "AA:bb" = Except.ok { filterAddr := "aa:bb" } ∧
      scanCallback Char.toLower "12:00:00.000" (fun _ => "0.00") { filterAddr := "aa:bb" }
          false (sampleResult "AA:BB:CC:DD:EE:FF") "" =
        displayAdvertisementData "12:00:00.000" (fun _ => "0.00")
          (sampleResult "AA:BB:CC:DD:EE:FF") "" :=
  ⟨rfl,
    (scanCallback_reports_iff Char.toLower "12:00:00.000" (fun _ => "0.00") "AA:bb"
      { filterAddr := "aa:bb" } false (sampleResult "AA:BB:CC:DD:EE:FF") "" rfl).1.mpr
      ⟨rfl, Or.inr ⟨"", ":cc:dd:ee:ff", by decide⟩⟩⟩

/-- C7: for a scan result with empty local name, no manufacturer data, no service data
and no raw bytes, the report printed is exactly four content lines in this order - the
timestamped header, the address line, the RSSI line, the distance line - followed by one
blank line, and nothing else (no optional section). -/
theorem display_without_optional_sections (now : String) (fmtF2 : ℝ → String)
    (result : ScanResult) (out : String) (hn : result.LocalName = "")
    (hm : result.ManufacturerData = []) (hs : result.ServiceData = [])
    (hb : result.Bytes = []) :
    displayAdvertisementData now fmtF2 result out =
      out ++ unlines ["=== [" ++ now ++ "] ===",
        "Address: " ++ result.Address,
        "RSSI: " ++ fmtD result.RSSI ++ " dBm",
        "Estimated Distance: " ++ fmtF2 (rssiToDistance result.RSSI) ++ "m",
        ""] := by
  unfold displayAdvertisementData displayRawData displayServiceData
    displayManufacturerData displayHeader
  apply String.ext
  simp [hn, hm, hs, hb, unlines, String.data_append]

theorem display_without_optional_sections_witness :
    (sampleResult "AA:BB:CC:DD:EE:FF").LocalName = "" ∧
      (sampleResult "AA:BB:CC:DD:EE:FF").ManufacturerData = [] ∧
      (sampleResult "AA:BB:CC:DD:EE:FF").ServiceData = [] ∧
      (sampleResult "AA:BB:CC:DD:EE:FF").Bytes = [] ∧
      displayAdvertisementData "12:00:00.000" (fun _ => "0.35")
          (sampleResult "AA:BB:CC:DD:EE:FF") "" =
        "" ++ unlines ["=== [" ++ "12:00:00.000" ++ "] ===",
          "Address: " ++ (sampleResult "AA:BB:CC:DD:EE:FF").Address,
          "RSSI: " ++ fmtD (sampleResult "AA:BB:CC:DD:EE:FF").RSSI ++ " dBm",
          "Estimated Distance: " ++
            (fun _ => "0.35") (rssiToDistance (sampleResult "AA:BB:CC:DD:EE:FF").RSSI) ++ "m",
          ""] :=
  ⟨rfl, rfl, rfl, rfl,
    display_without_optional_sections "12:00:00.000" (fun _ => "0.35")
      (sampleResult "AA:BB:CC:DD:EE:FF") "" rfl rfl rfl rfl⟩

/-- C8: for a scan result with at least one manufacturer-data entry, the report holds,
right after the header part, the line "Manufacturer Data:" followed for each entry, in
the order delivered, by "  Company ID: 0x" plus the company identifier as exactly four
lower-case hexadecimal digits and "  Data: " plus the payload as lower-case hexadecimal,
two digits per byte; for the entry with identifier 0x004C and payload 02 15 these are
"  Company ID: 0x004c" and "  Data: 0215". -/
theorem display_manufacturer_data (now : String) (fmtF2 : ℝ → String)
    (result : ScanResult) (out : String) (h : result.ManufacturerData ≠ []) :
    displayAdvertisementData now fmtF2 result out =
        displayRawData result
          (displayServiceData result
            (displayHeader now fmtF2 result out ++ "Manufacturer Data:\n" ++
              concatAll (result.ManufacturerData.map specManufacturerEntry))) ∧
      specManufacturerEntry { CompanyID := 0x004C, Data := [0x02, 0x15] } =
        unlines ["  Company ID: 0x004c", "  Data: 0215"] ∧
      (result.ManufacturerData = [{ CompanyID := 0x004C, Data := [0x02, 0x15] }] →
        displayManufacturerData result out =
          out ++ unlines ["Manufacturer Data:", "  Company ID: 0x004c", "  Data: 0215"]) := by
  refine ⟨?_, by decide, ?_⟩
  · unfold displayAdvertisementData
    rw [displayManufacturerData_eq result _ h]
  · intro he
    rw [displayManufacturerData_eq result out h, he]
    have hd : concatAll (List.map specManufacturerEntry
        [{ CompanyID := 0x004C, Data := [0x02, 0x15] }]) =
        unlines ["  Company ID: 0x004c", "  Data: 0215"] := by decide
    rw [hd]
    simp [unlines, String.append_assoc]

theorem display_manufacturer_data_witness :
    sampleBeacon.ManufacturerData ≠ [] ∧
      displayManufacturerData sampleBeacon "" =
        "" ++ unlines ["Manufacturer Data:", "  Company ID: 0x004c", "  Data: 0215"] :=
  ⟨List.cons_ne_nil _ _,
    (display_manufacturer_data "12:00:00.000" (fun _ => "0.35") sampleBeacon ""
      (List.cons_ne_nil _ _)).2.2 rfl⟩

/-- C9, as stated, fails: when the driver's scan operation terminates on its own with a
nil result, `Start` returns nil, not an error. -/
theorem Start_scanDone_nil_returns_nil :
    Start (SelectCase.scanDone none) none = none ∧
      ¬ ∃ e : GoError, Start (SelectCase.scanDone none) none = some e := by
  refine ⟨rfl, ?_⟩
  rintro ⟨e, he⟩
  exact Option.noConfusion he

/-- C9, amended: when the driver's scan operation terminates on its own before a
cancellation is observed and returned a non-nil error `e`, `Start` returns a non-nil
error whose message is "scanning failed: " followed by the message of `e` and which
wraps `e`; when the scan operation returned nil, `Start` returns nil. Neither case
depends on what a stop request would return. -/
theorem Start_scanDone (e : GoError) (stopScan : Option GoError) :
    Start (SelectCase.scanDone (some e)) stopScan = some (Errorf "scanning failed" e) ∧
      (Errorf "scanning failed" e).Error = "scanning failed: " ++ e.Error ∧
      (Errorf "scanning failed" e).Unwrap = some e ∧
      Start (SelectCase.scanDone none) stopScan = none :=
  ⟨rfl, rfl, rfl, rfl⟩

end Sniffer
